import Mathlib

/-!
# Verification of the dev-browser identity subsystem and DOM pipeline

Shallow embedding of the repository's code:

* `backend-ids.ts` — `resolveBackendIds`, `resolveSelectorFromBackendId`,
  `isBackendNodeIdValid`, and the injected `BUILD_SELECTOR_FUNCTION`
  JavaScript (selector synthesis with the id / data-testid / name /
  nth-of-type priority ladder and CSS escaping).
* `dom/index.ts` — the `getLLMTree` pipeline and its exposed
  `processTree` / `serializeDOMTree` decomposition.

The CDP (Chrome DevTools Protocol) engine is external to the repository, so
it is modelled as a record of deterministic primitives, each returning
`Except String` to mirror a CDP command that can throw.  Each identity
operation additionally produces a trace of session events (`acquire`,
`send`, `detach`) so that the scoped acquire/release discipline implemented
with `try`/`finally` in the source is visible to theorems.
-/

set_option autoImplicit false

namespace DevBrowser

/-- A session-level event: creating the CDP session, sending one command on
it, and detaching it.  `try { ... } finally { await cdpSession.detach() }`
in the source is embedded by emitting `detach` as the last event on every
control path, error paths included. -/
inductive CDPEvent where
  | acquire
  | send (cmd : String)
  | detach
  deriving DecidableEq, Repr

/-- Result of `Runtime.callFunctionOn` with `returnByValue: true`:
`exceptionText` models the optional `exceptionDetails` field and `value`
models `result.result.value`. -/
structure CallFnResult where
  exceptionText : Option String
  value : String
  deriving DecidableEq, Repr

/-- The engine behind one CDP session, as seen by `backend-ids.ts`.  Each
field is one CDP command used by the source; `Except.error` models the
command throwing.  `resolveNode` returns the remote object's `objectId`,
with `""` standing for a missing/empty id (both are falsy for the source's
`!object.objectId` check). -/
structure CDPEngine where
  getDocumentRoot : Except String Nat
  querySelector : Nat → String → Except String Nat
  describeNode : Nat → Except String Nat
  resolveNode : Nat → Except String String
  callFunctionOn : String → Except String CallFnResult
  releaseObjectGroup : Except String Unit

/-- One iteration of the `for (const [index, selector] of selectorMap)`
loop of `resolveBackendIds`: query the selector under the document root,
and when a non-zero `nodeId` comes back, describe it and record its
`backendNodeId`; the inner `try { ... } catch {}` swallows any failure and
keeps the accumulator unchanged.  The accumulator carries the result map
(as an association list in insertion order, like a JS `Map`) and the
events sent so far on the one shared session. -/
def resolveStep (eng : CDPEngine) (rootId : Nat)
    (acc : List (Nat × Nat) × List CDPEvent) (entry : Nat × String) :
    List (Nat × Nat) × List CDPEvent :=
  match eng.querySelector rootId entry.2 with
  | .error _ => (acc.1, acc.2 ++ [.send "DOM.querySelector"])
  | .ok nodeId =>
    if nodeId = 0 then
      (acc.1, acc.2 ++ [.send "DOM.querySelector"])
    else
      match eng.describeNode nodeId with
      | .error _ =>
        (acc.1, acc.2 ++ [.send "DOM.querySelector", .send "DOM.describeNode"])
      | .ok backendId =>
        (acc.1 ++ [(entry.1, backendId)],
         acc.2 ++ [.send "DOM.querySelector", .send "DOM.describeNode"])

/-- `resolveBackendIds` from `backend-ids.ts`.  A fresh CDP session is
acquired first; `DOM.getDocument` runs inside the outer `try`, so its
failure propagates (after the `finally` detach), while each per-selector
failure is caught inside the loop.  Returns the call's outcome together
with the full session-event trace. -/
def resolveBackendIds (eng : CDPEngine) (selectorMap : List (Nat × String)) :
    Except String (List (Nat × Nat)) × List CDPEvent :=
  match eng.getDocumentRoot with
  | .error e => (.error e, [.acquire, .send "DOM.getDocument", .detach])
  | .ok rootId =>
    let looped := selectorMap.foldl (resolveStep eng rootId) ([], [])
    (.ok looped.1,
     .acquire :: .send "DOM.getDocument" :: looped.2 ++ [.detach])

/-- `resolveSelectorFromBackendId` from `backend-ids.ts`.  Resolves the
backend node id to a remote object, throws when the object id is falsy,
runs the injected selector-builder, releases the object group, and throws
when the in-page function reported `exceptionDetails`; every CDP command
failure propagates.  The `finally` detach closes the trace on all paths. -/
def resolveSelectorFromBackendId (eng : CDPEngine) (backendNodeId : Nat) :
    Except String String × List CDPEvent :=
  match eng.resolveNode backendNodeId with
  | .error e => (.error e, [.acquire, .send "DOM.resolveNode", .detach])
  | .ok objectId =>
    if objectId = "" then
      (.error "Could not resolve node to object",
       [.acquire, .send "DOM.resolveNode", .detach])
    else
      match eng.callFunctionOn objectId with
      | .error e =>
        (.error e,
         [.acquire, .send "DOM.resolveNode", .send "Runtime.callFunctionOn", .detach])
      | .ok result =>
        match eng.releaseObjectGroup with
        | .error e =>
          (.error e,
           [.acquire, .send "DOM.resolveNode", .send "Runtime.callFunctionOn",
            .send "Runtime.releaseObjectGroup", .detach])
        | .ok _ =>
          match result.exceptionText with
          | some t =>
            (.error ("Failed to build selector: " ++ t),
             [.acquire, .send "DOM.resolveNode", .send "Runtime.callFunctionOn",
              .send "Runtime.releaseObjectGroup", .detach])
          | none =>
            (.ok result.value,
             [.acquire, .send "DOM.resolveNode", .send "Runtime.callFunctionOn",
              .send "Runtime.releaseObjectGroup", .detach])

/-- `isBackendNodeIdValid` from `backend-ids.ts`: `DOM.resolveNode` inside
`try { ... return true } catch { return false }`, so the outcome is always
a `Bool` and any engine failure becomes `false`. -/
def isBackendNodeIdValid (eng : CDPEngine) (backendNodeId : Nat) :
    Bool × List CDPEvent :=
  match eng.resolveNode backendNodeId with
  | .ok _ => (true, [.acquire, .send "DOM.resolveNode", .detach])
  | .error _ => (false, [.acquire, .send "DOM.resolveNode", .detach])

/-! ## The injected selector-builder (`BUILD_SELECTOR_FUNCTION`)

The JavaScript string constant in `backend-ids.ts` runs in page context
against a DOM element (`this`).  The DOM is embedded as a tree of element
nodes; an element is addressed by the document `body` node together with
the downward path of child indices from `body` (DOM node identity is the
position in the tree).  `getAttribute` returning `null` and a missing /
empty `id` are both falsy in the source's checks, so absent attributes are
modelled as `""`. -/

/-- The element data the injected function reads: `tagName` (as the DOM
reports it, typically uppercase), the `id` property (`""` when absent) and
the attribute map queried through `getAttribute`. -/
structure ElemData where
  tagName : String
  id : String
  attrs : List (String × String)
  deriving DecidableEq, Repr

/-- A DOM element node: its data and its element children in document
order (`parent.children` in the source). -/
inductive DomNode where
  | mk : ElemData → List DomNode → DomNode

/-- The element data of a node. -/
def DomNode.data : DomNode → ElemData
  | .mk d _ => d

/-- The element children of a node, in document order. -/
def DomNode.children : DomNode → List DomNode
  | .mk _ cs => cs

/-- `getAttribute(name)`, with `null` collapsed to `""` (both are falsy in
the truthiness checks of the source). -/
def getAttr (d : ElemData) (name : String) : String :=
  (d.attrs.lookup name).getD ""

/-- The element reached from `n` by following a downward path of child
indices; `none` when the path leaves the tree. -/
def elemAtPath (n : DomNode) : List Nat → Option DomNode
  | [] => some n
  | i :: rest =>
    match n.children[i]? with
    | none => none
    | some c => elemAtPath c rest

/-- Code points of the CSS special characters matched by the source's
escaping regex (`! " # $ % & ' ( ) * + , . / : ; < = > ? @ [ \ ] ^
backtick, the two curly braces, | ~`). -/
def cssSpecialCodes : List Nat :=
  [33, 34, 35, 36, 37, 38, 39, 40, 41, 42, 43, 44, 46, 47, 58, 59,
   60, 61, 62, 63, 64, 91, 92, 93, 94, 96, 123, 124, 125, 126]

/-- Whether a character is in the source regex's special set. -/
def isCssSpecial (c : Char) : Bool :=
  cssSpecialCodes.contains c.toNat

/-- `str.replace(/([...])/g, backslash + match)` scans left to right and
prefixes each matching character with a backslash, leaving the rest
unchanged. -/
def escapeChars : List Char → List Char
  | [] => []
  | c :: cs =>
    if isCssSpecial c then '\\' :: c :: escapeChars cs
    else c :: escapeChars cs

/-- `escapeSelector` from `BUILD_SELECTOR_FUNCTION`. -/
def escapeSelector (s : String) : String :=
  String.mk (escapeChars s.data)

/-- The segment the while-loop emits for the element at index `i` of
`parent.children`: `siblings` filters the children to those sharing the
element's lowercased tag; with more than one same-tag sibling the segment
is `tag:nth-of-type(idx)` where `idx = siblings.indexOf(el) + 1` — since
`indexOf` compares DOM nodes by identity, it equals the number of same-tag
children strictly before position `i` — otherwise the bare tag. -/
def segmentFor (parent : DomNode) (i : Nat) : Option String :=
  match parent.children[i]? with
  | none => none
  | some e =>
    let tag := e.data.tagName.toLower
    let siblings := parent.children.filter
      (fun c => c.data.tagName.toLower == tag)
    if siblings.length > 1 then
      let idx := (parent.children.take i).countP
        (fun c => c.data.tagName.toLower == tag) + 1
      some (tag ++ ":nth-of-type(" ++ toString idx ++ ")")
    else
      some tag

/-- The `while (el && el !== document.body && el.parentElement)` loop.
`rp` is the reversed downward path of the current element (deepest index
first), so the loop variable moving to `el.parentElement` is the tail of
`rp`; `acc` is the array into which the loop unshifts segments, so each
new segment is prepended.  The loop ends when the current element is
`body`, i.e. when `rp` is empty. -/
def walkUp (body : DomNode) : List Nat → List String → Option (List String)
  | [], acc => some acc
  | i :: rest, acc =>
    match elemAtPath body rest.reverse with
    | none => none
    | some parent =>
      match segmentFor parent i with
      | none => none
      | some seg => walkUp body rest (seg :: acc)

/-- The path array built by the loop for the element at `path` under
`body`, in its final (top-down) order. -/
def buildPathSegments (body : DomNode) (path : List Nat) :
    Option (List String) :=
  walkUp body path.reverse []

/-- `BUILD_SELECTOR_FUNCTION` itself, for the element at `path` under
`body`: priority 1 the non-empty `id`, priority 2 the non-empty
`data-testid`, priority 3 the non-empty `name` on a form-control tag,
priority 4 the ancestor path joined with separators and prefixed
with the body segment, falling back to the bare lowercased tag when the
walk produced no segments. -/
def buildSelector (body : DomNode) (path : List Nat) : Option String :=
  match elemAtPath body path with
  | none => none
  | some el =>
    let d := el.data
    if d.id ≠ "" then
      some ("#" ++ escapeSelector d.id)
    else
      let testId := getAttr d "data-testid"
      if testId ≠ "" then
        some ("[data-testid=\"" ++ escapeSelector testId ++ "\"]")
      else
        let tagName := d.tagName.toLower
        let nm := getAttr d "name"
        if nm ≠ "" ∧ tagName ∈ (["input", "select", "textarea"] : List String) then
          some (tagName ++ "[name=\"" ++ escapeSelector nm ++ "\"]")
        else
          match buildPathSegments body path with
          | none => none
          | some segs =>
            some (if segs.isEmpty then tagName
                  else "body > " ++ String.intercalate " > " segs)

/-- Top-down rendering of the level segments along a downward path: one
segment per level, computed from that level's parent and index.  This is
the specification-side reading of the loop (the source builds the same
list bottom-up by unshifting). -/
def specSegs (n : DomNode) : List Nat → List String
  | [] => []
  | i :: rest =>
    match n.children[i]? with
    | none => []
    | some c => (segmentFor n i).getD "" :: specSegs c rest

/-! ## The extraction pipeline (`dom/index.ts`)

`getLLMTree`, `processTree` and `serializeDOMTree` live in `dom/index.ts`;
the stage implementations (`extractRawDOM`, `filterVisibleNodes`,
`filterByPaintOrder`, `filterByBboxPropagation`, `serializeTree`) are
imported from sibling modules, so they are abstracted as a record of
functions over an arbitrary raw-tree type and options type.
`extractRawDOM` returning `null` and `filterVisibleNodes` returning
`null`/`undefined` are modelled with `Option`. -/

/-- The result of serialization: the tree text and the selector map
(index to CSS selector, in insertion order like a JS `Map`). -/
abbrev LLMTreeResult := String × List (Nat × String)

/-- The pipeline stages `dom/index.ts` imports, over a raw-tree type and
an options type. -/
structure DomPipeline (Raw Opts : Type) where
  filterVisibleNodes : Raw → Option Raw
  filterByPaintOrder : Raw → Raw
  filterByBboxPropagation : Raw → Raw
  serializeTree : Raw → Opts → LLMTreeResult

variable {Raw Opts : Type}

/-- `getLLMTree` from `dom/index.ts`, with the result of `extractRawDOM`
passed in as `extracted` (the extraction runs against the live page):
empty result when extraction yields nothing or visibility filtering
removes the whole tree, otherwise paint-order filtering, then bbox
propagation filtering, then serialization. -/
def getLLMTree (P : DomPipeline Raw Opts) (extracted : Option Raw)
    (options : Opts) : LLMTreeResult :=
  match extracted with
  | none => ("", [])
  | some rawTree =>
    match P.filterVisibleNodes rawTree with
    | none => ("", [])
    | some visibleTree =>
      let paintFiltered := P.filterByPaintOrder visibleTree
      let bboxFiltered := P.filterByBboxPropagation paintFiltered
      P.serializeTree bboxFiltered options

/-- `processTree` from `dom/index.ts`: the three filters applied in the
same order, `none` when visibility filtering removes the whole tree. -/
def processTree (P : DomPipeline Raw Opts) (rawTree : Raw) : Option Raw :=
  match P.filterVisibleNodes rawTree with
  | none => none
  | some visibleTree =>
    let paintFiltered := P.filterByPaintOrder visibleTree
    let bboxFiltered := P.filterByBboxPropagation paintFiltered
    some bboxFiltered

/-- `serializeDOMTree` from `dom/index.ts`: a direct wrapper around
`serializeTree`. -/
def serializeDOMTree (P : DomPipeline Raw Opts) (tree : Raw)
    (options : Opts) : LLMTreeResult :=
  P.serializeTree tree options

/-! ## Concrete fixtures used by witness theorems -/

/-- A concrete engine: the document root resolves, one selector matches
node 5, every other selector throws, and backend-node resolution always
throws (a stale handle). -/
def engW : CDPEngine where
  getDocumentRoot := .ok 1
  querySelector := fun _ sel => if sel = "#a" then .ok 5 else .error "no match"
  describeNode := fun n => .ok (n + 100)
  resolveNode := fun _ => .error "No node with given id"
  callFunctionOn := fun _ => .ok ⟨none, "sel"⟩
  releaseObjectGroup := .ok ()

/-- A button carrying both an `id` and a `data-testid`. -/
def btnW : DomNode := .mk ⟨"BUTTON", "myButton", [("data-testid", "x")]⟩ []

/-- A body whose only child is `btnW`. -/
def bodyW : DomNode := .mk ⟨"BODY", "", []⟩ [btnW]

/-- An anonymous button with no distinguishing attributes. -/
def plainBtn : DomNode := .mk ⟨"BUTTON", "", []⟩ []

/-- A body holding a `div` with two anonymous sibling buttons. -/
def bodyW2 : DomNode :=
  .mk ⟨"BODY", "", []⟩ [.mk ⟨"DIV", "", []⟩ [plainBtn, plainBtn]]

/-- A concrete pipeline over `Nat` trees: `0` is filtered away entirely by
the visibility stage, everything else flows through arithmetic stages that
keep the stage order observable. -/
def pipeW : DomPipeline Nat Unit where
  filterVisibleNodes := fun n => if n = 0 then none else some (n + 1)
  filterByPaintOrder := fun n => 2 * n
  filterByBboxPropagation := fun n => n + 3
  serializeTree := fun n _ => (toString n, [(1, toString n)])

/-- A pipeline agreeing with `pipeW` on visibility filtering but with
different later stages. -/
def pipeW2 : DomPipeline Nat Unit where
  filterVisibleNodes := pipeW.filterVisibleNodes
  filterByPaintOrder := id
  filterByBboxPropagation := id
  serializeTree := fun _ _ => ("other", [])

/-- A session trace produced by scoped acquisition: it opens with the
session acquisition, closes with the detach, and everything in between is
plain command traffic on that one session. -/
abbrev scopedTrace (tr : List CDPEvent) : Prop :=
  ∃ mid, tr = CDPEvent.acquire :: mid ++ [CDPEvent.detach] ∧
    ∀ ev ∈ mid, ev ≠ CDPEvent.acquire ∧ ev ≠ CDPEvent.detach

/-! ## Helper lemmas -/

lemma elemAtPath_append (p q : List Nat) :
    ∀ n : DomNode, elemAtPath n (p ++ q) =
      (elemAtPath n p).bind (fun m => elemAtPath m q) := by
  induction p with
  | nil => intro n; simp [elemAtPath]
  | cons i rest ih =>
    intro n
    simp only [List.cons_append, elemAtPath]
    cases h : n.children[i]? with
    | none => simp
    | some c => simp [ih]

lemma elemAtPath_single (n : DomNode) (i : Nat) :
    elemAtPath n [i] = n.children[i]? := by
  simp only [elemAtPath]
  cases h : n.children[i]? <;> simp

lemma segmentFor_of_get {parent : DomNode} {i : Nat} {c : DomNode}
    (h : parent.children[i]? = some c) :
    ∃ s, segmentFor parent i = some s := by
  unfold segmentFor
  rw [h]
  dsimp only
  split <;> exact ⟨_, rfl⟩

lemma specSegs_snoc :
    ∀ (q : List Nat) (n parent c : DomNode) (i : Nat),
      elemAtPath n q = some parent → parent.children[i]? = some c →
      specSegs n (q ++ [i]) = specSegs n q ++ [(segmentFor parent i).getD ""] := by
  intro q
  induction q with
  | nil =>
    intro n parent c i h1 h2
    simp only [elemAtPath, Option.some.injEq] at h1
    subst h1
    simp [specSegs, h2]
  | cons j q ih =>
    intro n parent c i h1 h2
    simp only [elemAtPath] at h1
    cases hj : n.children[j]? with
    | none => rw [hj] at h1; simp at h1
    | some d =>
      rw [hj] at h1
      simp only [List.cons_append, specSegs, hj]
      simp only [List.append_eq]
      rw [ih d parent c i h1 h2]

lemma walkUp_eq (b : DomNode) :
    ∀ (rp : List Nat) (acc : List String) (e : DomNode),
      elemAtPath b rp.reverse = some e →
      walkUp b rp acc = some (specSegs b rp.reverse ++ acc) := by
  intro rp
  induction rp with
  | nil => intro acc e h; simp [walkUp, specSegs]
  | cons i rest ih =>
    intro acc e h
    rw [List.reverse_cons, elemAtPath_append] at h
    cases hp : elemAtPath b rest.reverse with
    | none => rw [hp] at h; simp at h
    | some parent =>
      rw [hp] at h
      simp only [Option.bind_some, Option.some_bind] at h
      rw [elemAtPath_single] at h
      obtain ⟨seg, hseg⟩ := segmentFor_of_get h
      simp only [walkUp, hp, hseg]
      rw [ih (seg :: acc) parent hp, List.reverse_cons,
        specSegs_snoc rest.reverse b parent e i hp h, hseg]
      simp

lemma buildPathSegments_eq {b : DomNode} {path : List Nat} {e : DomNode}
    (h : elemAtPath b path = some e) :
    buildPathSegments b path = some (specSegs b path) := by
  unfold buildPathSegments
  have h2 : elemAtPath b path.reverse.reverse = some e := by
    rwa [List.reverse_reverse]
  simpa using walkUp_eq b path.reverse [] e h2

lemma buildSelector_fallback {body : DomNode} {path : List Nat} {el : DomNode}
    (he : elemAtPath body path = some el)
    (hid : el.data.id = "")
    (htid : getAttr el.data "data-testid" = "")
    (hname : ¬(getAttr el.data "name" ≠ "" ∧
      el.data.tagName.toLower ∈ (["input", "select", "textarea"] : List String))) :
    buildSelector body path =
      (buildPathSegments body path).map
        (fun segs => if segs.isEmpty then el.data.tagName.toLower
                     else "body > " ++ String.intercalate " > " segs) := by
  unfold buildSelector
  rw [he]
  simp only [hid, htid, hname, ne_eq, not_true_eq_false, if_false, if_neg hname]
  cases hbp : buildPathSegments body path <;> simp [hbp]

lemma escapeChars_eq_flatMap (l : List Char) :
    escapeChars l =
      l.flatMap (fun c => if isCssSpecial c then ['\\', c] else [c]) := by
  induction l with
  | nil => simp [escapeChars]
  | cons c cs ih =>
    by_cases h : isCssSpecial c <;> simp [escapeChars, h, ih]

lemma foldl_resolveStep_mem (eng : CDPEngine) (root : Nat) :
    ∀ (l : List (Nat × String)) (acc : List (Nat × Nat) × List CDPEvent)
      (p : Nat × Nat), p ∈ (l.foldl (resolveStep eng root) acc).1 →
      p ∈ acc.1 ∨ ∃ sel n, (p.1, sel) ∈ l ∧
        eng.querySelector root sel = .ok n ∧ n ≠ 0 ∧
        eng.describeNode n = .ok p.2 := by
  intro l
  induction l with
  | nil => intro acc p hp; exact Or.inl hp
  | cons hd tl ih =>
    intro acc p hp
    rw [List.foldl_cons] at hp
    rcases ih _ p hp with hmem | ⟨sel, n, hsel, hq, hn, hdesc⟩
    · unfold resolveStep at hmem
      split at hmem
      · exact Or.inl hmem
      · rename_i nodeId hq
        split at hmem
        · exact Or.inl hmem
        · rename_i h0
          split at hmem
          · exact Or.inl hmem
          · rename_i backendId hdn
            rcases List.mem_append.mp hmem with h | h
            · exact Or.inl h
            · have hpe : p = (hd.1, backendId) := by simpa using h
              refine Or.inr ⟨hd.2, nodeId, ?_, hq, h0, ?_⟩
              · rw [hpe]; exact List.mem_cons_self hd tl
              · rw [hpe]; exact hdn
    · exact Or.inr ⟨sel, n, List.mem_cons_of_mem _ hsel, hq, hn, hdesc⟩

lemma resolveStep_events (eng : CDPEngine) (root : Nat)
    (acc : List (Nat × Nat) × List CDPEvent) (entry : Nat × String) :
    ∃ se, (resolveStep eng root acc entry).2 = acc.2 ++ se ∧
      ∀ ev ∈ se, ∃ c, ev = CDPEvent.send c := by
  unfold resolveStep
  split
  · exact ⟨[.send "DOM.querySelector"], rfl, by simp⟩
  · split
    · exact ⟨[.send "DOM.querySelector"], rfl, by simp⟩
    · split
      · exact ⟨[.send "DOM.querySelector", .send "DOM.describeNode"], rfl, by simp⟩
      · exact ⟨[.send "DOM.querySelector", .send "DOM.describeNode"], rfl, by simp⟩

lemma foldl_resolveStep_events (eng : CDPEngine) (root : Nat) :
    ∀ (l : List (Nat × String)) (acc : List (Nat × Nat) × List CDPEvent),
      ∃ extra, (l.foldl (resolveStep eng root) acc).2 = acc.2 ++ extra ∧
        ∀ ev ∈ extra, ∃ c, ev = CDPEvent.send c := by
  intro l
  induction l with
  | nil => intro acc; exact ⟨[], by simp, by simp⟩
  | cons hd tl ih =>
    intro acc
    obtain ⟨extra, hex, hall⟩ := ih (resolveStep eng root acc hd)
    obtain ⟨se, hse, hallse⟩ := resolveStep_events eng root acc hd
    refine ⟨se ++ extra, ?_, ?_⟩
    · rw [List.foldl_cons, hex, hse, List.append_assoc]
    · intro ev hev
      rcases List.mem_append.mp hev with h | h
      · exact hallse ev h
      · exact hall ev h

lemma sends_mid (cmds : List String) :
    ∀ ev ∈ cmds.map CDPEvent.send,
      ev ≠ CDPEvent.acquire ∧ ev ≠ CDPEvent.detach := by
  intro ev hev
  obtain ⟨c, _, hc⟩ := List.mem_map.mp hev
  subst hc
  exact ⟨fun h => CDPEvent.noConfusion h, fun h => CDPEvent.noConfusion h⟩

lemma resolveStep_fst_of_ok (eng : CDPEngine) (root : Nat)
    (acc : List (Nat × Nat) × List CDPEvent) (entry : Nat × String)
    (n b : Nat) (hq : eng.querySelector root entry.2 = .ok n) (hn : n ≠ 0)
    (hdesc : eng.describeNode n = .ok b) :
    (resolveStep eng root acc entry).1 = acc.1 ++ [(entry.1, b)] := by
  unfold resolveStep
  simp [hq, hn, hdesc]

lemma foldl_resolveStep_mono (eng : CDPEngine) (root : Nat) :
    ∀ (l : List (Nat × String)) (acc : List (Nat × Nat) × List CDPEvent)
      (p : Nat × Nat), p ∈ acc.1 →
      p ∈ (l.foldl (resolveStep eng root) acc).1 := by
  intro l
  induction l with
  | nil => intro acc p hp; exact hp
  | cons hd tl ih =>
    intro acc p hp
    rw [List.foldl_cons]
    apply ih
    unfold resolveStep
    split
    · exact hp
    · split
      · exact hp
      · split
        · exact hp
        · exact List.mem_append.mpr (Or.inl hp)

lemma foldl_resolveStep_success (eng : CDPEngine) (root : Nat) :
    ∀ (l : List (Nat × String)) (acc : List (Nat × Nat) × List CDPEvent)
      (i : Nat) (sel : String) (n b : Nat),
      (i, sel) ∈ l → eng.querySelector root sel = .ok n → n ≠ 0 →
      eng.describeNode n = .ok b →
      (i, b) ∈ (l.foldl (resolveStep eng root) acc).1 := by
  intro l
  induction l with
  | nil => intro acc i sel n b h; simp at h
  | cons hd tl ih =>
    intro acc i sel n b hmem hq hn hdesc
    rw [List.foldl_cons]
    rcases List.mem_cons.mp hmem with h | h
    · subst h
      apply foldl_resolveStep_mono
      rw [resolveStep_fst_of_ok eng root acc (i, sel) n b hq hn hdesc]
      simp
    · exact ih (resolveStep eng root acc hd) i sel n b h hq hn hdesc

lemma nodup_keys_unique :
    ∀ {m : List (Nat × String)} {i : Nat} {a b : String},
      (m.map Prod.fst).Nodup → (i, a) ∈ m → (i, b) ∈ m → a = b := by
  intro m
  induction m with
  | nil => simp
  | cons hd tl ih =>
    intro i a b hnd ha hb
    rw [List.map_cons, List.nodup_cons] at hnd
    rcases List.mem_cons.mp ha with h1 | h1 <;> rcases List.mem_cons.mp hb with h2 | h2
    · rw [← h2] at h1
      exact (Prod.mk.injEq _ _ _ _ ▸ h1).2
    · exfalso
      apply hnd.1
      have : i = hd.1 := by rw [← h1]
      rw [this] at h2
      exact List.mem_map.mpr ⟨(hd.1, b), h2, rfl⟩
    · exfalso
      apply hnd.1
      have : i = hd.1 := by rw [← h2]
      rw [this] at h1
      exact List.mem_map.mpr ⟨(hd.1, a), h1, rfl⟩
    · exact ih hnd.2 h1 h2

/-! ## Claim theorems -/

/-- C4: every occurrence of a character in the CSS special set
(code points 33, 34, 35, 36, 37, 38, 39, 40, 41, 42, 43, 44, 46, 47,
58 to 64, 91 to 94, 96, 123 to 126 — exactly the set the claim lists) is
prefixed with a backslash by `escapeSelector`, and characters outside that
set are left unchanged: the output is the character-wise expansion where a
special character becomes backslash-then-character and any other character
maps to itself. -/
theorem escapeSelector_css_escaping :
    (∀ c : Char, isCssSpecial c = true ↔
      c.toNat ∈ [33, 34, 35, 36, 37, 38, 39, 40, 41, 42, 43, 44, 46, 47,
        58, 59, 60, 61, 62, 63, 64, 91, 92, 93, 94, 96, 123, 124, 125, 126]) ∧
    (∀ s : String, (escapeSelector s).data =
      s.data.flatMap (fun c => if isCssSpecial c then ['\\', c] else [c])) := by
  constructor
  · intro c
    simp [isCssSpecial, cssSpecialCodes]
  · intro s
    exact escapeChars_eq_flatMap s.data

/-- C5: `isBackendNodeIdValid` always produces a boolean: it returns
`true` exactly when the engine's `DOM.resolveNode` succeeds on the handle
(the engine still recognizes it), and every resolution failure is reported
as `false` rather than propagated. -/
theorem isBackendNodeIdValid_total_boolean (eng : CDPEngine)
    (backendNodeId : Nat) :
    ((isBackendNodeIdValid eng backendNodeId).1 = true ↔
      ∃ o, eng.resolveNode backendNodeId = .ok o) ∧
    ((isBackendNodeIdValid eng backendNodeId).1 = false ↔
      ∃ e, eng.resolveNode backendNodeId = .error e) := by
  cases h : eng.resolveNode backendNodeId <;>
    simp [isBackendNodeIdValid, h]

/-- C8: when extraction yields a tree and visibility filtering keeps a
tree, `getLLMTree` is exactly serialization applied to the bbox-propagation
filter applied to the paint-order filter applied to the visibility-filtered
tree, under the given options — the stages run in that order and none is
skipped or reordered. -/
theorem getLLMTree_stage_order {Raw Opts : Type} (P : DomPipeline Raw Opts)
    (raw : Raw) (options : Opts) (visibleTree : Raw)
    (hvis : P.filterVisibleNodes raw = some visibleTree) :
    getLLMTree P (some raw) options =
      P.serializeTree
        (P.filterByBboxPropagation (P.filterByPaintOrder visibleTree))
        options := by
  simp [getLLMTree, hvis]

theorem getLLMTree_stage_order_witness :
    getLLMTree pipeW (some 1) () =
      pipeW.serializeTree
        (pipeW.filterByBboxPropagation (pipeW.filterByPaintOrder 2)) () :=
  getLLMTree_stage_order pipeW 1 () 2 (by decide)

/-- C9: when extraction yields no tree, or visibility filtering removes
the entire tree, `getLLMTree` returns the empty string and an empty
selector map instead of raising; and in the latter case the result does
not depend on the paint-order, bbox-propagation or serialization stages
at all (they are not invoked): any two pipelines agreeing on the
visibility filter produce the same result. -/
theorem getLLMTree_empty_cases :
    (∀ (Raw Opts : Type) (P : DomPipeline Raw Opts) (options : Opts),
      getLLMTree P none options = ("", [])) ∧
    (∀ (Raw Opts : Type) (P : DomPipeline Raw Opts) (raw : Raw) (options : Opts),
      P.filterVisibleNodes raw = none →
      getLLMTree P (some raw) options = ("", [])) ∧
    (∀ (Raw Opts : Type) (P Q : DomPipeline Raw Opts) (raw : Raw) (options : Opts),
      P.filterVisibleNodes = Q.filterVisibleNodes →
      P.filterVisibleNodes raw = none →
      getLLMTree P (some raw) options = getLLMTree Q (some raw) options) := by
  refine ⟨?_, ?_, ?_⟩
  · intro Raw Opts P options
    rfl
  · intro Raw Opts P raw options h
    simp [getLLMTree, h]
  · intro Raw Opts P Q raw options hfe h
    have hq : Q.filterVisibleNodes raw = none := by rw [← hfe]; exact h
    simp [getLLMTree, h, hq]

theorem getLLMTree_empty_cases_witness :
    getLLMTree pipeW (some 0) () = getLLMTree pipeW2 (some 0) () :=
  getLLMTree_empty_cases.2.2 Nat Unit pipeW pipeW2 0 () rfl (by decide)

/-- C10: whenever the exposed decomposition `processTree` returns a tree,
serializing it with `serializeDOMTree` under the same options gives
exactly what the monolithic `getLLMTree` pipeline produces from the same
raw tree and options — the two paths apply the same three filters in the
same order and are equivalent. -/
theorem processTree_serializeDOMTree_refines {Raw Opts : Type}
    (P : DomPipeline Raw Opts) (rawTree : Raw) (options : Opts) (t : Raw)
    (hp : processTree P rawTree = some t) :
    serializeDOMTree P t options = getLLMTree P (some rawTree) options := by
  cases hvis : P.filterVisibleNodes rawTree with
  | none => simp [processTree, hvis] at hp
  | some v =>
    simp only [processTree, hvis, Option.some.injEq] at hp
    subst hp
    simp [getLLMTree, serializeDOMTree, hvis]

theorem processTree_serializeDOMTree_refines_witness :
    serializeDOMTree pipeW 7 () = getLLMTree pipeW (some 1) () :=
  processTree_serializeDOMTree_refines pipeW 1 () 7 (by decide)

/-- C1: for every engine on which the document root resolves,
`resolveBackendIds` returns (never raises), its result's key set is a
subset of the input map's key set, every entry whose selector resolves
(a non-zero node that the describe call maps to a backend id) appears in
the result with that backend id — regardless of how any other entry
fares, so each pair is resolved independently and a per-selector failure
never aborts the remaining iterations — an empty input gives an empty
result, and any entry whose selector fails to resolve (the query throws,
matches nothing, or the describe call throws) is omitted from the result
rather than stored. -/
theorem resolveBackendIds_partial_resolution (eng : CDPEngine)
    (selectorMap : List (Nat × String)) (root : Nat)
    (hroot : eng.getDocumentRoot = .ok root) :
    ∃ r, (resolveBackendIds eng selectorMap).1 = .ok r ∧
      (∀ p ∈ r, p.1 ∈ selectorMap.map Prod.fst) ∧
      (∀ i sel, (i, sel) ∈ selectorMap →
        ∀ n b, eng.querySelector root sel = .ok n → n ≠ 0 →
          eng.describeNode n = .ok b → (i, b) ∈ r) ∧
      (selectorMap = [] → r = []) ∧
      ((selectorMap.map Prod.fst).Nodup →
        ∀ i sel, (i, sel) ∈ selectorMap →
          ((∃ e, eng.querySelector root sel = .error e) ∨
            eng.querySelector root sel = .ok 0 ∨
            (∃ n, eng.querySelector root sel = .ok n ∧ n ≠ 0 ∧
              ∃ e, eng.describeNode n = .error e)) →
          i ∉ r.map Prod.fst) := by
  refine ⟨(selectorMap.foldl (resolveStep eng root) ([], [])).1, ?_, ?_, ?_, ?_, ?_⟩
  · simp [resolveBackendIds, hroot]
  · intro p hp
    rcases foldl_resolveStep_mem eng root selectorMap ([], []) p hp with
      h | ⟨sel, n, hsel, _, _, _⟩
    · simp at h
    · exact List.mem_map.mpr ⟨(p.1, sel), hsel, rfl⟩
  · intro i sel hmem n b hq hn hdesc
    exact foldl_resolveStep_success eng root selectorMap ([], []) i sel n b
      hmem hq hn hdesc
  · intro h
    subst h
    rfl
  · intro hnd i sel hmem hfail hin
    rw [List.mem_map] at hin
    obtain ⟨p, hp, hpi⟩ := hin
    rcases foldl_resolveStep_mem eng root selectorMap ([], []) p hp with
      h | ⟨sel2, n, hsel2, hq, hn, hdesc⟩
    · simp at h
    · rw [hpi] at hsel2
      have hseleq : sel2 = sel := nodup_keys_unique hnd hsel2 hmem
      subst hseleq
      rcases hfail with ⟨e, he⟩ | he | ⟨n2, hq2, hn2, e, he2⟩
      · rw [he] at hq
        exact absurd hq (by simp)
      · rw [he] at hq
        simp only [Except.ok.injEq] at hq
        exact hn hq.symm
      · rw [hq2] at hq
        simp only [Except.ok.injEq] at hq
        rw [hq] at he2
        rw [he2] at hdesc
        exact absurd hdesc (by simp)

theorem resolveBackendIds_partial_resolution_witness :
    engW.getDocumentRoot = .ok 1 ∧
    ∃ r, (resolveBackendIds engW [(1, "#a"), (2, "#b")]).1 = .ok r ∧
      (∀ p ∈ r, p.1 ∈ ([(1, "#a"), (2, "#b")] : List (Nat × String)).map Prod.fst) ∧
      (∀ i sel, (i, sel) ∈ ([(1, "#a"), (2, "#b")] : List (Nat × String)) →
        ∀ n b, engW.querySelector 1 sel = .ok n → n ≠ 0 →
          engW.describeNode n = .ok b → (i, b) ∈ r) ∧
      (([(1, "#a"), (2, "#b")] : List (Nat × String)) = [] → r = []) ∧
      ((([(1, "#a"), (2, "#b")] : List (Nat × String)).map Prod.fst).Nodup →
        ∀ i sel, (i, sel) ∈ ([(1, "#a"), (2, "#b")] : List (Nat × String)) →
          ((∃ e, engW.querySelector 1 sel = .error e) ∨
            engW.querySelector 1 sel = .ok 0 ∨
            (∃ n, engW.querySelector 1 sel = .ok n ∧ n ≠ 0 ∧
              ∃ e, engW.describeNode n = .error e)) →
          i ∉ r.map Prod.fst) :=
  ⟨rfl, resolveBackendIds_partial_resolution engW [(1, "#a"), (2, "#b")] 1 rfl⟩

/-- C2: the synthesized selector follows the strict priority ladder: a
non-empty `id` always gives the hash form (in particular an element with
both an `id` and a `data-testid` gets the id form); otherwise a non-empty
`data-testid` gives the attribute form; otherwise a non-empty `name` on an
`input`, `select` or `textarea` gives the `tag[name=...]` form; and only
otherwise is the ancestor-path form produced. -/
theorem buildSelector_priority_ladder (body : DomNode) (path : List Nat)
    (el : DomNode) (he : elemAtPath body path = some el) :
    (el.data.id ≠ "" →
      buildSelector body path = some ("#" ++ escapeSelector el.data.id)) ∧
    (el.data.id = "" → getAttr el.data "data-testid" ≠ "" →
      buildSelector body path =
        some ("[data-testid=\"" ++
          escapeSelector (getAttr el.data "data-testid") ++ "\"]")) ∧
    (el.data.id = "" → getAttr el.data "data-testid" = "" →
      getAttr el.data "name" ≠ "" →
      el.data.tagName.toLower ∈ (["input", "select", "textarea"] : List String) →
      buildSelector body path =
        some (el.data.tagName.toLower ++ "[name=\"" ++
          escapeSelector (getAttr el.data "name") ++ "\"]")) ∧
    (el.data.id = "" → getAttr el.data "data-testid" = "" →
      ¬(getAttr el.data "name" ≠ "" ∧
        el.data.tagName.toLower ∈ (["input", "select", "textarea"] : List String)) →
      buildSelector body path =
        (buildPathSegments body path).map
          (fun segs => if segs.isEmpty then el.data.tagName.toLower
                       else "body > " ++ String.intercalate " > " segs)) := by
  refine ⟨?_, ?_, ?_, ?_⟩
  · intro hid
    simp [buildSelector, he, hid]
  · intro hid htid
    simp [buildSelector, he, hid, htid]
  · intro hid htid hnm htag
    simp [buildSelector, he, hid, htid, hnm, htag]
  · intro hid htid hname
    exact buildSelector_fallback he hid htid hname

theorem buildSelector_priority_ladder_witness :
    buildSelector bodyW [0] = some ("#" ++ escapeSelector "myButton") :=
  (buildSelector_priority_ladder bodyW [0] btnW rfl).1 (by decide)

/-- C3: for an element with no id, no data-testid and no form-control
name, the selector is the ancestor walk: the source's bottom-up unshifting
loop produces exactly the top-down per-level segments (`tag:nth-of-type(n)`
with `n` the 1-based position among same-tag siblings of the parent when
more than one same-tag sibling exists, the bare tag otherwise), joined
with the separator and prefixed with the body segment; when the walk
yields no segments the bare lowercase tag name is returned. -/
theorem buildSelector_ancestor_path (body : DomNode) (path : List Nat)
    (el : DomNode) (he : elemAtPath body path = some el)
    (hid : el.data.id = "")
    (htid : getAttr el.data "data-testid" = "")
    (hname : ¬(getAttr el.data "name" ≠ "" ∧
      el.data.tagName.toLower ∈ (["input", "select", "textarea"] : List String))) :
    buildPathSegments body path = some (specSegs body path) ∧
    buildSelector body path =
      some (if (specSegs body path).isEmpty then el.data.tagName.toLower
            else "body > " ++ String.intercalate " > " (specSegs body path)) := by
  have hbp := buildPathSegments_eq he
  refine ⟨hbp, ?_⟩
  rw [buildSelector_fallback he hid htid hname, hbp]
  rfl

theorem buildSelector_ancestor_path_witness :
    buildPathSegments bodyW2 [0, 1] = some (specSegs bodyW2 [0, 1]) ∧
    buildSelector bodyW2 [0, 1] =
      some (if (specSegs bodyW2 [0, 1]).isEmpty then plainBtn.data.tagName.toLower
            else "body > " ++ String.intercalate " > " (specSegs bodyW2 [0, 1])) :=
  buildSelector_ancestor_path bodyW2 [0, 1] plainBtn rfl rfl rfl (by decide)

/-- C6: `resolveSelectorFromBackendId` surfaces an error to the caller
whenever the handle no longer denotes a resolvable object (the resolve
call throws, or yields no object id) or the in-page synthesis function
fails (the call throws, or reports an in-page exception); the failure is
never swallowed. -/
theorem resolveSelectorFromBackendId_fails_loudly (eng : CDPEngine)
    (backendNodeId : Nat)
    (h : (∃ e, eng.resolveNode backendNodeId = .error e) ∨
      eng.resolveNode backendNodeId = .ok "" ∨
      (∃ o, eng.resolveNode backendNodeId = .ok o ∧ o ≠ "" ∧
        ∃ e, eng.callFunctionOn o = .error e) ∨
      (∃ o res, eng.resolveNode backendNodeId = .ok o ∧ o ≠ "" ∧
        eng.callFunctionOn o = .ok res ∧ res.exceptionText.isSome)) :
    ∃ e, (resolveSelectorFromBackendId eng backendNodeId).1 = .error e := by
  rcases h with ⟨e, he⟩ | he | ⟨o, ho, hne, e, hcf⟩ | ⟨o, res, ho, hne, hcf, hex⟩
  · exact ⟨e, by simp [resolveSelectorFromBackendId, he]⟩
  · exact ⟨"Could not resolve node to object",
      by simp [resolveSelectorFromBackendId, he]⟩
  · exact ⟨e, by simp [resolveSelectorFromBackendId, ho, hne, hcf]⟩
  · cases hrel : eng.releaseObjectGroup with
    | error e2 =>
      exact ⟨e2, by simp [resolveSelectorFromBackendId, ho, hne, hcf, hrel]⟩
    | ok u =>
      obtain ⟨t, ht⟩ := Option.isSome_iff_exists.mp hex
      exact ⟨"Failed to build selector: " ++ t,
        by simp [resolveSelectorFromBackendId, ho, hne, hcf, hrel, ht]⟩

theorem resolveSelectorFromBackendId_fails_loudly_witness :
    ∃ e, (resolveSelectorFromBackendId engW 7).1 = .error e :=
  resolveSelectorFromBackendId_fails_loudly engW 7
    (Or.inl ⟨"No node with given id", rfl⟩)

/-- C7: each of the three identity operations produces a session trace
that opens with a fresh acquisition and closes with the detach on every
exit path, with nothing but command traffic in between — the channel is
never leaked; in particular `resolveBackendIds` runs all per-selector
resolutions over the one session, whose detach comes only after the loop
completes. -/
theorem identity_ops_scoped_sessions :
    (∀ (eng : CDPEngine) (selectorMap : List (Nat × String)),
      scopedTrace (resolveBackendIds eng selectorMap).2) ∧
    (∀ (eng : CDPEngine) (backendNodeId : Nat),
      scopedTrace (resolveSelectorFromBackendId eng backendNodeId).2) ∧
    (∀ (eng : CDPEngine) (backendNodeId : Nat),
      scopedTrace (isBackendNodeIdValid eng backendNodeId).2) := by
  refine ⟨?_, ?_, ?_⟩
  · intro eng m
    cases hroot : eng.getDocumentRoot with
    | error e =>
      exact ⟨["DOM.getDocument"].map CDPEvent.send,
        by simp [resolveBackendIds, hroot], sends_mid _⟩
    | ok root =>
      obtain ⟨extra, hex, hall⟩ := foldl_resolveStep_events eng root m ([], [])
      refine ⟨CDPEvent.send "DOM.getDocument" :: extra, ?_, ?_⟩
      · simp only [resolveBackendIds, hroot]
        rw [hex]
        simp
      · intro ev hev
        rcases List.mem_cons.mp hev with h | h
        · subst h
          exact ⟨fun hc => CDPEvent.noConfusion hc, fun hc => CDPEvent.noConfusion hc⟩
        · obtain ⟨c, hc⟩ := hall ev h
          subst hc
          exact ⟨fun hc => CDPEvent.noConfusion hc, fun hc => CDPEvent.noConfusion hc⟩
  · intro eng backendNodeId
    unfold resolveSelectorFromBackendId
    split
    · exact ⟨["DOM.resolveNode"].map CDPEvent.send, rfl, sends_mid _⟩
    · split
      · exact ⟨["DOM.resolveNode"].map CDPEvent.send, rfl, sends_mid _⟩
      · split
        · exact ⟨["DOM.resolveNode", "Runtime.callFunctionOn"].map CDPEvent.send,
            rfl, sends_mid _⟩
        · split
          · exact ⟨["DOM.resolveNode", "Runtime.callFunctionOn",
              "Runtime.releaseObjectGroup"].map CDPEvent.send, rfl, sends_mid _⟩
          · split
            · exact ⟨["DOM.resolveNode", "Runtime.callFunctionOn",
                "Runtime.releaseObjectGroup"].map CDPEvent.send, rfl, sends_mid _⟩
            · exact ⟨["DOM.resolveNode", "Runtime.callFunctionOn",
                "Runtime.releaseObjectGroup"].map CDPEvent.send, rfl, sends_mid _⟩
  · intro eng backendNodeId
    unfold isBackendNodeIdValid
    split
    · exact ⟨["DOM.resolveNode"].map CDPEvent.send, rfl, sends_mid _⟩
    · exact ⟨["DOM.resolveNode"].map CDPEvent.send, rfl, sends_mid _⟩

end DevBrowser
